import Mathlib

/-!
Verification of the street-segment resolver of `snow_montreal`
(`custom_components/snow_montreal/street_lookup.py`).

Python strings are modelled as Lean `String` (lists of characters); the
handful of `str` operations the resolver uses (`lower`, `strip`, `split`,
`startswith`, the `in` substring test and `replace`) are re-implemented
below over `List Char` with the semantics of the CPython operations, so
that every definition is executable and every concrete evaluation can be
checked by the kernel.  Python `int` is modelled as `Int`, Python `float`
as `Rat` (the resolver only ever averages and compares coordinates), and
fallible code as `Except`/`Option`.
-/

namespace SnowMontreal

/-- Python `str.lower` (ASCII case fold, which is all the resolver's data uses). -/
def toLowerPy (s : List Char) : List Char := s.map Char.toLower

/-- Drop leading whitespace, as Python `str.lstrip`. -/
def trimLeft : List Char → List Char
  | [] => []
  | c :: r => if c.isWhitespace then trimLeft r else c :: r

/-- Python `str.strip`: drop leading and trailing whitespace. -/
def trimPy (s : List Char) : List Char := (trimLeft (trimLeft s).reverse).reverse

/-- Helper for `splitWs`: accumulates the current (reversed) token. -/
def splitWsAux : List Char → List Char → List (List Char)
  | [], acc => if acc.isEmpty then [] else [acc.reverse]
  | c :: rest, acc =>
    if c.isWhitespace then
      if acc.isEmpty then splitWsAux rest [] else acc.reverse :: splitWsAux rest []
    else splitWsAux rest (c :: acc)

/-- Python `str.split()` with no argument: the maximal whitespace-free runs. -/
def splitWs (s : List Char) : List (List Char) := splitWsAux s []

/-- Python `needle in hay` substring containment. -/
def containsB : List Char → List Char → Bool
  | [], pat => pat.isEmpty
  | c :: rest, pat => pat.isPrefixOf (c :: rest) || containsB rest pat

/-- One pass of Python `str.replace` (all non-overlapping occurrences, left to
right).  The `fuel` argument is the length of the scanned list, so recursion is
structural; the source only ever calls this with a non-empty pattern. -/
def replaceFuel (pat rep : List Char) : Nat → List Char → List Char
  | _, [] => []
  | 0, s => s
  | fuel + 1, c :: rest =>
    if pat.isPrefixOf (c :: rest) then
      rep ++ replaceFuel pat rep fuel (rest.drop (pat.length - 1))
    else
      c :: replaceFuel pat rep fuel rest

/-- Python `s.replace(pat, rep)` for a non-empty `pat`. -/
def listReplace (pat rep s : List Char) : List Char := replaceFuel pat rep s.length s

/-- Python `str <` (lexicographic comparison by code point). -/
def strLtB : List Char → List Char → Bool
  | [], [] => false
  | [], _ :: _ => true
  | _ :: _, [] => false
  | a :: as, b :: bs => if a = b then strLtB as bs else decide (a < b)

/-- The ordered replacement table of `StreetLookup._normalize_street_name`
(Python dict insertion order = iteration order). -/
def replacements : List (String × String) :=
  [("st-", "saint-"), ("st ", "saint "),
   ("ste-", "sainte-"), ("ste ", "sainte "),
   ("av.", "avenue"), ("av ", "avenue "),
   ("boul.", "boulevard"), ("boul ", "boulevard "),
   ("blvd", "boulevard"),
   ("ch.", "chemin"), ("ch ", "chemin "),
   ("pl.", "place"), ("pl ", "place "),
   ("rue ", "")]

/-- `StreetLookup._normalize_street_name`: lower-case, run every replacement of
the table in order over the whole string, then strip. -/
def _normalize_street_name (name : String) : String :=
  String.mk (trimPy (replacements.foldl
    (fun r pf => listReplace pf.1.data pf.2.data r) (toLowerPy name.data)))

/-- The `StreetSegment` dataclass. -/
structure StreetSegment where
  cote_rue_id : Int
  street_name : String
  address_start : Option Int
  address_end : Option Int
  side : String
  borough : String
  full_description : String
  lat : Option Rat := none
  lon : Option Rat := none
deriving DecidableEq, Repr

/-- The `GeocodedAddress` dataclass. -/
structure GeocodedAddress where
  display_name : String
  lat : Rat
  lon : Rat
  house_number : Option String
  street : Option String
  city : Option String
  importance : Rat
deriving DecidableEq, Repr

/-- Python truthiness of an `int | None` field (`None` and `0` are falsy). -/
def obTruthy : Option Int → Bool
  | none => false
  | some n => decide (n ≠ 0)

/-- Python `segment.address_start or 0`, the sort-key fallback. -/
def startKey (seg : StreetSegment) : Int := seg.address_start.getD 0

/-- The normalized form of a segment's name exactly as the search loops build
it: `self._normalize_street_name(segment.street_name.lower())`. -/
def normSegName (seg : StreetSegment) : String :=
  _normalize_street_name (String.mk (toLowerPy seg.street_name.data))

/-- A Python sort key of the shape used by all the resolver's `list.sort`
calls: up to two integers, one string compared by code point, and one final
integer, compared lexicographically (CPython tuple comparison). -/
structure SortKey where
  k1 : Int
  k2 : Int
  name : List Char
  k3 : Int
deriving DecidableEq, Repr

/-- Lexicographic `≤` on `SortKey`, the order CPython's tuple comparison
induces for the keys the resolver sorts by. -/
def keyLe (x y : SortKey) : Bool :=
  if x.k1 = y.k1 then
    if x.k2 = y.k2 then
      if x.name = y.name then decide (x.k3 ≤ y.k3)
      else strLtB x.name y.name
    else decide (x.k2 < y.k2)
  else decide (x.k1 < y.k1)

/-- `list.sort(key=f)`: a stable sort by the mapped key (CPython's sort is
stable; insertion sort as defined in Mathlib is stable as well). -/
def sortByKey (f : α → SortKey) (l : List α) : List α :=
  List.insertionSort (fun x y => keyLe (f x) (f y) = true) l

/-- The text-match score of `StreetLookup.search` (line 695-710): the scored
if-chain over the normalized query and normalized candidate name; `none`
models the `continue` that excludes the candidate. -/
def textScore (qn sn : String) : Option Nat :=
  if sn = qn then some 100
  else if qn.data.isPrefixOf sn.data then some 80
  else if (splitWs sn.data).contains qn.data then some 60
  else if containsB sn.data qn.data then some 40
  else none

/-- The civic-number filter of `StreetLookup.search` (line 713-723): bonus,
exclusion, or pass-through applied to an already scored candidate. -/
def searchCivicAdjust (civic : Option Int) (score : Nat) (seg : StreetSegment) : Option Nat :=
  match civic with
  | none => some score
  | some c =>
    if obTruthy seg.address_start && obTruthy seg.address_end then
      let a := seg.address_start.getD 0
      let b := seg.address_end.getD 0
      if min a b ≤ c && c ≤ max a b then some (score + 20) else none
    else if obTruthy seg.address_start then
      if c < seg.address_start.getD 0 then none else some score
    else some score

/-- The `results` list of `StreetLookup.search` before sorting: each loaded
segment paired with its final score, candidates excluded by either the text
match or the civic filter dropped. -/
def searchScored (streets : List StreetSegment) (qn : String) (civic : Option Int) :
    List (Nat × StreetSegment) :=
  streets.filterMap (fun seg =>
    match textScore qn (normSegName seg) with
    | none => none
    | some sc => (searchCivicAdjust civic sc seg).map (fun s => (s, seg)))

/-- The sort key `(-score, street_name, address_start or 0)` of
`StreetLookup.search`. -/
def searchKey (x : Nat × StreetSegment) : SortKey :=
  ⟨-(x.1 : Int), 0, x.2.street_name.data, startKey x.2⟩

/-- `query_normalized` of `StreetLookup.search`:
`self._normalize_street_name(query.lower().strip())`. -/
def normQuery (query : String) : String :=
  _normalize_street_name (String.mk (trimPy (toLowerPy query.data)))

/-- The full sorted `results` list of `StreetLookup.search`, before the
`[:limit]` truncation and the segment projection. -/
def searchSorted (streets : List StreetSegment) (query : String) (civic : Option Int) :
    List (Nat × StreetSegment) :=
  sortByKey searchKey (searchScored streets (normQuery query) civic)

/-- `StreetLookup.search` up to the final projection: the sorted, truncated
list of `(score, segment)` pairs. -/
def searchRanked (loaded : Bool) (streets : List StreetSegment) (query : String)
    (civic : Option Int) (limit : Nat) : List (Nat × StreetSegment) :=
  if !loaded then []
  else if String.mk (trimPy (toLowerPy query.data)) = "" then []
  else (searchSorted streets query civic).take limit

/-- `StreetLookup.search(query, civic_number, limit)`.  The instance state
(`self._loaded`, `self._streets`) is passed explicitly. -/
def search (loaded : Bool) (streets : List StreetSegment) (query : String)
    (civic : Option Int) (limit : Nat) : List StreetSegment :=
  (searchRanked loaded streets query civic limit).map (fun x => x.2)

/-- `StreetLookup.search_by_address`: a thin alias for `search`. -/
def search_by_address (loaded : Bool) (streets : List StreetSegment) (civic : Int)
    (street_name : String) (limit : Nat) : List StreetSegment :=
  search loaded streets street_name (some civic) limit

/-- The closed-range containment test of `StreetLookup._search_by_civic_number`
(line 534-537): both bounds truthy and `min ≤ civic ≤ max`. -/
def rangeContains (c : Int) (seg : StreetSegment) : Bool :=
  obTruthy seg.address_start && obTruthy seg.address_end &&
    (decide (min (seg.address_start.getD 0) (seg.address_end.getD 0) ≤ c) &&
     decide (c ≤ max (seg.address_start.getD 0) (seg.address_end.getD 0)))

/-- The optional normalized street hint as the lookup methods build it: the
raw argument must be truthy (non-empty), and the loop then re-tests the
normalized string for truthiness before filtering with it. -/
def normHint (h : Option String) : Option String :=
  match h with
  | none => none
  | some s =>
    if s = "" then none
    else
      let n := _normalize_street_name (String.mk (toLowerPy s.data))
      if n = "" then none else some n

/-- `StreetLookup._search_by_civic_number(civic_number, street_hint, limit)`. -/
def _search_by_civic_number (loaded : Bool) (streets : List StreetSegment) (civic : Int)
    (street_hint : Option String) (limit : Nat) : List StreetSegment :=
  if !loaded then []
  else
    let results := streets.filter (fun seg =>
      (match normHint street_hint with
       | some hs => containsB (normSegName seg).data hs.data
       | none => true) && rangeContains civic seg)
    (sortByKey (fun seg => ⟨0, 0, seg.street_name.data, startKey seg⟩) results).take limit

/-- The civic-number filter of `StreetLookup.find_nearest_segments`
(line 381-389): `True` keeps the segment. -/
def nearestCivicKeep (civic : Option Int) (seg : StreetSegment) : Bool :=
  match civic with
  | none => true
  | some c =>
    if obTruthy seg.address_start && obTruthy seg.address_end then
      decide (min (seg.address_start.getD 0) (seg.address_end.getD 0) ≤ c) &&
        decide (c ≤ max (seg.address_start.getD 0) (seg.address_end.getD 0))
    else if obTruthy seg.address_start then
      !decide (c < seg.address_start.getD 0)
    else true

/-- The street-name filter of `StreetLookup.find_nearest_segments`
(line 375-378): containment in either direction. -/
def nearestNameKeep (sf : Option String) (seg : StreetSegment) : Bool :=
  match sf with
  | none => true
  | some f => containsB (normSegName seg).data f.data || containsB f.data (normSegName seg).data

/-- `StreetLookup.find_nearest_segments(lat, lon, street_name, civic_number,
limit)`.  The haversine distance (`_calculate_distance`, float trigonometry) is
abstracted as the `dist` parameter; none of the verified properties depend on
its values. -/
def find_nearest_segments (dist : Rat → Rat → Rat → Rat → Rat) (loaded : Bool)
    (streets : List StreetSegment) (lat lon : Rat) (street_name : Option String)
    (civic : Option Int) (limit : Nat) : List StreetSegment :=
  if !loaded then []
  else
    let sf := normHint street_name
    let results := streets.filterMap (fun seg =>
      match seg.lat, seg.lon with
      | some slat, some slon =>
        if nearestNameKeep sf seg && nearestCivicKeep civic seg then
          some (dist lat lon slat slon, seg)
        else none
      | _, _ => none)
    ((List.insertionSort (fun x y : Rat × StreetSegment => x.1 ≤ y.1) results).take
      limit).map (fun x => x.2)

/-- The re-ranking key `(not in_range, distance_penalty, street_name)` of
`StreetLookup.async_search_by_postal_code` (line 488-501). -/
def postalSortKey (civic : Int) (seg : StreetSegment) : SortKey :=
  if obTruthy seg.address_start && obTruthy seg.address_end then
    let amin := min (seg.address_start.getD 0) (seg.address_end.getD 0)
    let amax := max (seg.address_start.getD 0) (seg.address_end.getD 0)
    if amin ≤ civic ∧ civic ≤ amax then ⟨0, 0, seg.street_name.data, 0⟩
    else ⟨1, min (civic - amin).natAbs (civic - amax).natAbs, seg.street_name.data, 0⟩
  else ⟨1, 0, seg.street_name.data, 0⟩

/-- `StreetLookup.async_search_by_postal_code(civic_number, postal_code,
street_hint, limit)`.  The four geocoding attempts are network calls; their
results enter the model as the parameters `g1`–`g4` (strategy `i` is consulted
only when all earlier ones returned no hits, and `g4` is `[]` whenever the
postal code is too short for strategy 4 to run). -/
def async_search_by_postal_code (dist : Rat → Rat → Rat → Rat → Rat) (loaded : Bool)
    (streets : List StreetSegment) (g1 g2 g3 g4 : List GeocodedAddress) (civic : Int)
    (street_hint : Option String) (limit : Nat) : List StreetSegment :=
  let geocoded :=
    if !g1.isEmpty then g1 else if !g2.isEmpty then g2 else if !g3.isEmpty then g3 else g4
  if geocoded.isEmpty then _search_by_civic_number loaded streets civic street_hint limit
  else
    let all_results := geocoded.foldl (fun acc geo =>
      (find_nearest_segments dist loaded streets geo.lat geo.lon none none (limit * 2)).foldl
        (fun acc2 seg => if seg ∈ acc2 then acc2 else acc2 ++ [seg]) acc) []
    (sortByKey (postalSortKey civic) all_results).take limit

/-- A GeoJSON geometry as `_extract_centroid` consumes it.  `lineString` and
`multiLineString` vertices are `(lon, lat)` pairs (GeoJSON coordinate order);
a `point` carries its raw coordinate list (the code checks its length);
`other` stands for any other `type` tag. -/
inductive Geometry where
  | lineString (coords : List (Rat × Rat))
  | multiLineString (lines : List (List (Rat × Rat)))
  | point (coords : List Rat)
  | other
deriving DecidableEq, Repr

/-- `StreetLookup._extract_centroid(geometry)`: `(lat, lon)` of the unweighted
vertex average, the point itself, or `(None, None)`. -/
def _extract_centroid (geometry : Option Geometry) : Option Rat × Option Rat :=
  match geometry with
  | none => (none, none)
  | some (.lineString coords) =>
    if coords.isEmpty then (none, none)
    else
      ((coords.map (fun c => c.2)).sum / (coords.length : Rat),
       (coords.map (fun c => c.1)).sum / (coords.length : Rat))
  | some (.multiLineString lines) =>
    if lines.isEmpty then (none, none)
    else
      let all_coords := lines.flatten
      if all_coords.isEmpty then (none, none)
      else
        ((all_coords.map (fun c => c.2)).sum / (all_coords.length : Rat),
         (all_coords.map (fun c => c.1)).sum / (all_coords.length : Rat))
  | some (.point coords) =>
    match coords with
    | c0 :: c1 :: _ => (some c1, some c0)
    | _ => (none, none)
  | some .other => (none, none)

/-- The kind of exception a record's processing raises:
`except (ValueError, TypeError)` in `_parse_geobase` catches the first two
and skips the record; an `AttributeError` is not caught there. -/
inductive PyErr where
  | valueError
  | typeError
  | attributeError
deriving DecidableEq, Repr

/-- A JSON property value as `_parse_geobase` probes it: absent key, JSON
null, a number, or a string. -/
inductive JVal where
  | missing
  | null
  | num (n : Int)
  | str (s : String)
deriving DecidableEq, Repr

/-- Python truthiness of a `dict.get` result. -/
def truthyJ : JVal → Bool
  | .missing => false
  | .null => false
  | .num n => decide (n ≠ 0)
  | .str s => decide (s ≠ "")

/-- Python `int(v)` on a property value: numbers pass, numeric strings parse
(`ValueError` otherwise), `None` raises `TypeError`. -/
def pyInt : JVal → Except PyErr Int
  | .num n => .ok n
  | .str s =>
    let t := trimPy s.data
    match t with
    | '-' :: rest =>
      if !rest.isEmpty && rest.all Char.isDigit then
        .ok (-(rest.foldl (fun n c => n * 10 + (c.toNat - 48)) 0 : Nat))
      else .error .valueError
    | '+' :: rest =>
      if !rest.isEmpty && rest.all Char.isDigit then
        .ok ((rest.foldl (fun n c => n * 10 + (c.toNat - 48)) 0 : Nat))
      else .error .valueError
    | _ =>
      if !t.isEmpty && t.all Char.isDigit then
        .ok ((t.foldl (fun n c => n * 10 + (c.toNat - 48)) 0 : Nat))
      else .error .valueError
  | .null => .error .typeError
  | .missing => .error .typeError

/-- Python `str(v)` as used by the f-strings building `full_description`. -/
def pyFormat : JVal → String
  | .missing => "None"
  | .null => "None"
  | .num n => toString n
  | .str s => s

/-- One raw feature's properties as `_parse_geobase` reads them.  The fields
whose runtime type the code depends on (`COTE_RUE_ID`, `NOM_VOIE`,
`DEBUT_ADRESSE`, `FIN_ADRESSE`) are arbitrary JSON values; `COTE`, `NOM_ARR`
and `ARR` are only ever tested for truthiness and formatted, and are kept as
plain strings; the geometry enters as an already-shaped optional `Geometry`. -/
structure RawFeature where
  cote_rue_id : JVal := .missing
  nom_voie : JVal := .missing
  debut_adresse : JVal := .missing
  fin_adresse : JVal := .missing
  cote : String := ""
  nom_arr : String := ""
  arr : String := ""
  geometry : Option Geometry := none
deriving DecidableEq, Repr

/-- `props.get("NOM_VOIE", "").strip()`: the default covers a missing key, a
present non-string raises `AttributeError` (no `.strip` on `int`/`None`),
which `_parse_geobase` does NOT catch. -/
def nomVoieStripped (v : JVal) : Except PyErr String :=
  match v with
  | .missing => .ok ""
  | .str s => .ok (String.mk (trimPy s.data))
  | .null => .error .attributeError
  | .num _ => .error .attributeError

/-- The body of `_parse_geobase`'s per-feature `try` block: `ok none` models
a `continue` (record rejected), `ok (some seg)` an accepted record, `error e`
an exception escaping the block. -/
def parseFeature (f : RawFeature) : Except PyErr (Option StreetSegment) := do
  if !truthyJ f.cote_rue_id then return none
  let street_name ← nomVoieStripped f.nom_voie
  if street_name = "" then return none
  let borough := if f.nom_arr ≠ "" then f.nom_arr else f.arr
  let centroid := _extract_centroid f.geometry
  let parts₀ := [street_name]
  let parts₁ :=
    if truthyJ f.debut_adresse || truthyJ f.fin_adresse then
      if truthyJ f.debut_adresse && truthyJ f.fin_adresse then
        parts₀ ++ ["(" ++ pyFormat f.debut_adresse ++ "-" ++ pyFormat f.fin_adresse ++ ")"]
      else if truthyJ f.debut_adresse then
        parts₀ ++ ["(from " ++ pyFormat f.debut_adresse ++ ")"]
      else parts₀
    else parts₀
  let parts₂ :=
    if f.cote ≠ "" then
      parts₁ ++ ["- " ++ (if f.cote = "Droit" then "Right side" else "Left side")]
    else parts₁
  let parts₃ := if borough ≠ "" then parts₂ ++ ["[" ++ borough ++ "]"] else parts₂
  let idn ← pyInt f.cote_rue_id
  let address_start ←
    if truthyJ f.debut_adresse then (pyInt f.debut_adresse).map some else pure none
  let address_end ←
    if truthyJ f.fin_adresse then (pyInt f.fin_adresse).map some else pure none
  return some
    { cote_rue_id := idn
      street_name := street_name
      address_start := address_start
      address_end := address_end
      side := f.cote
      borough := borough
      full_description := String.intercalate " " parts₃
      lat := centroid.1
      lon := centroid.2 }

/-- The feature loop of `_parse_geobase`: `ValueError`/`TypeError` skip the
record, anything else (an `AttributeError`) propagates and aborts. -/
def parseFeatures : List RawFeature → Except PyErr (List StreetSegment)
  | [] => .ok []
  | f :: rest =>
    match parseFeature f with
    | .ok (some seg) => (parseFeatures rest).map (fun l => seg :: l)
    | .ok none => parseFeatures rest
    | .error .valueError => parseFeatures rest
    | .error .typeError => parseFeatures rest
    | .error .attributeError => .error .attributeError

/-- The top-level payload: `data.get("features", [])` — `none` models a
payload without a usable feature list. -/
structure RawData where
  features : Option (List RawFeature)
deriving Repr

/-- `StreetLookup._parse_geobase(data)`. -/
def _parse_geobase (data : RawData) : Except PyErr (List StreetSegment) :=
  match data.features with
  | none => .ok []
  | some fs => parseFeatures fs

/-- Decidable equality of parse outcomes (for concrete evaluations). -/
instance {ε α : Type} [DecidableEq ε] [DecidableEq α] : DecidableEq (Except ε α) := fun x y =>
  match x, y with
  | .error a, .error b =>
    if h : a = b then .isTrue (by rw [h])
    else .isFalse (fun hc => h (Except.error.inj hc))
  | .ok a, .ok b =>
    if h : a = b then .isTrue (by rw [h])
    else .isFalse (fun hc => h (Except.ok.inj hc))
  | .error _, .ok _ => .isFalse (fun hc => Except.noConfusion hc)
  | .ok _, .error _ => .isFalse (fun hc => Except.noConfusion hc)

/-!
Interleaving model of two concurrent `async_load(force_refresh=False)` calls
against one freshly constructed store.  asyncio runs each coroutine
atomically between `await` points; `async_load` suspends exactly at
`await self._lock.acquire()` (entering `async with self._lock`) and at the
dataset fetch inside `_async_get_geobase_data`.  A task is therefore in one
of three spots: suspended on the lock, holding the lock and awaiting the
(successful) fetch, or finished with its boolean result.  The scheduler is an
arbitrary sequence of choices of which runnable task to resume.
-/

/-- Position of one `async_load(force_refresh=False)` caller. -/
inductive LoadPC where
  | waitingLock
  | inFetch
  | finished (result : Bool)
deriving DecidableEq, Repr

/-- Shared store state plus both callers' positions: the lock, the
`_loaded` flag, and how many dataset fetches have been started. -/
structure LoadState where
  lockHeld : Bool
  loaded : Bool
  fetches : Nat
  t1 : LoadPC
  t2 : LoadPC
deriving DecidableEq, Repr

/-- Whether task 1 can be resumed: a task suspended on the lock is runnable
only when the lock is free; a finished task never runs again. -/
def enabled1 (s : LoadState) : Bool :=
  match s.t1 with
  | .waitingLock => !s.lockHeld
  | .inFetch => true
  | .finished _ => false

/-- Whether task 2 can be resumed. -/
def enabled2 (s : LoadState) : Bool :=
  match s.t2 with
  | .waitingLock => !s.lockHeld
  | .inFetch => true
  | .finished _ => false

/-- Resume task 1 once: acquiring the lock runs synchronously up to the next
await — it checks `self._loaded` and either returns `True` at once (releasing
the lock) or starts the fetch; a completed fetch parses, sets `_loaded`,
releases the lock and returns `True`. -/
def advance1 (s : LoadState) : LoadState :=
  match s.t1 with
  | .waitingLock =>
    if s.lockHeld then s
    else if s.loaded then { s with t1 := .finished true }
    else { s with lockHeld := true, fetches := s.fetches + 1, t1 := .inFetch }
  | .inFetch => { s with lockHeld := false, loaded := true, t1 := .finished true }
  | .finished _ => s

/-- Resume task 2 once (symmetric to `advance1`). -/
def advance2 (s : LoadState) : LoadState :=
  match s.t2 with
  | .waitingLock =>
    if s.lockHeld then s
    else if s.loaded then { s with t2 := .finished true }
    else { s with lockHeld := true, fetches := s.fetches + 1, t2 := .inFetch }
  | .inFetch => { s with lockHeld := false, loaded := true, t2 := .finished true }
  | .finished _ => s

/-- One scheduler step: resume the chosen task if it is runnable, otherwise
the other one (if neither is runnable nothing happens). -/
def loadStep (s : LoadState) (choice : Bool) : LoadState :=
  if choice then (if enabled1 s then advance1 s else advance2 s)
  else (if enabled2 s then advance2 s else advance1 s)

/-- Run a whole schedule. -/
def runLoad : LoadState → List Bool → LoadState
  | s, [] => s
  | s, c :: cs => runLoad (loadStep s c) cs

/-- Both callers issued against an empty store: lock free, nothing loaded,
no fetch started, both suspended on the lock. -/
def initLoad : LoadState :=
  { lockHeld := false, loaded := false, fetches := 0
    t1 := .waitingLock, t2 := .waitingLock }

/-! Concrete fixture segments used by the witness instantiations. -/

/-- A segment with a closed civic range. -/
def segStDenis : StreetSegment :=
  ⟨42, "Rue Saint-Denis", some 1000, some 1200, "Droit", "", "", none, none⟩

/-- A segment with only `address_start`. -/
def segDenisStartOnly : StreetSegment :=
  ⟨3, "Rue Denis", some 50, none, "Droit", "", "", none, none⟩

/-- A segment with a reversed closed range (`address_start > address_end`). -/
def segReversed : StreetSegment :=
  ⟨5, "Place Denis", some 200, some 100, "Gauche", "", "", none, none⟩

/-- A segment with no centroid but a closed civic range. -/
def segNoCentroid : StreetSegment :=
  ⟨7, "Rue Elm", some 1, some 10, "Droit", "", "", none, none⟩

/-- A segment with a centroid. -/
def segWithCentroid : StreetSegment :=
  ⟨8, "Rue Elm", some 1, some 10, "Droit", "", "", some 45, some (-73)⟩

/-- A segment whose stored range has a zero lower bound. -/
def segZeroStart : StreetSegment :=
  ⟨9, "Rue Zero", some 0, some 100, "Droit", "", "", none, none⟩

/-- A well-formed raw feature. -/
def goodFeature : RawFeature :=
  { cote_rue_id := .num 42, nom_voie := .str "Rue Saint-Denis",
    debut_adresse := .num 1000, fin_adresse := .num 1200,
    cote := "Droit", nom_arr := "Ville-Marie", arr := "", geometry := none }

/-- The segment `goodFeature` parses to. -/
def goodSegment : StreetSegment :=
  ⟨42, "Rue Saint-Denis", some 1000, some 1200, "Droit", "Ville-Marie",
   "Rue Saint-Denis (1000-1200) - Right side [Ville-Marie]", none, none⟩

/-- A raw feature whose identifier is a non-numeric string: `int(...)`
raises `ValueError`, which the parse loop catches and skips. -/
def skipFeature : RawFeature :=
  { cote_rue_id := .str "abc", nom_voie := .str "Rue X" }

/-- A raw feature whose street-name field holds a number: `.strip()` raises
`AttributeError`, which the parse loop does NOT catch. -/
def abortFeature : RawFeature :=
  { cote_rue_id := .num 7, nom_voie := .num 123 }

/-! Order lemmas for the sort comparators. -/

theorem strLtB_irrefl (a : List Char) : strLtB a a = false := by
  induction a with
  | nil => simp [strLtB]
  | cons c as ih => simp [strLtB, ih]

theorem strLtB_total (a b : List Char) :
    a = b ∨ strLtB a b = true ∨ strLtB b a = true := by
  induction a generalizing b with
  | nil =>
    cases b with
    | nil => left; rfl
    | cons d bs => right; left; simp [strLtB]
  | cons c as ih =>
    cases b with
    | nil => right; right; simp [strLtB]
    | cons d bs =>
      by_cases h : c = d
      · subst h
        rcases ih bs with heq | hlt | hlt
        · left; rw [heq]
        · right; left; simp [strLtB, hlt]
        · right; right; simp [strLtB, hlt]
      · rcases lt_trichotomy c d with h1 | h1 | h1
        · right; left; simp [strLtB, h, h1]
        · exact absurd h1 h
        · right; right; simp [strLtB, Ne.symm h, h1]

theorem strLtB_trans (a b c : List Char) (h1 : strLtB a b = true)
    (h2 : strLtB b c = true) : strLtB a c = true := by
  induction a generalizing b c with
  | nil =>
    cases b with
    | nil => simp [strLtB] at h1
    | cons d bs =>
      cases c with
      | nil => simp [strLtB] at h2
      | cons e cs => simp [strLtB]
  | cons x as ih =>
    cases b with
    | nil => simp [strLtB] at h1
    | cons y bs =>
      cases c with
      | nil => simp [strLtB] at h2
      | cons z cs =>
        by_cases hxy : x = y
        · subst hxy
          simp only [strLtB, if_pos rfl] at h1
          by_cases hyz : x = z
          · subst hyz
            simp only [strLtB, if_pos rfl] at h2 ⊢
            exact ih bs cs h1 h2
          · simp only [strLtB, if_neg hyz] at h2 ⊢
            exact h2
        · simp only [strLtB, if_neg hxy, decide_eq_true_eq] at h1
          by_cases hyz : y = z
          · have hxz : x ≠ z := hyz ▸ hxy
            have hlt : x < z := hyz ▸ h1
            simp [strLtB, hxz, hlt]
          · simp only [strLtB, if_neg hyz, decide_eq_true_eq] at h2
            have hlt : x < z := lt_trans h1 h2
            have hxz : x ≠ z := ne_of_lt hlt
            simp [strLtB, hxz, hlt]

theorem strLtB_asymm (a b : List Char) (h : strLtB a b = true) :
    strLtB b a = false := by
  by_contra hc
  have hba : strLtB b a = true := by
    cases hab : strLtB b a with
    | false => exact absurd hab hc
    | true => rfl
  have := strLtB_trans a b a h hba
  rw [strLtB_irrefl] at this
  exact Bool.false_ne_true this

/-- Characterization of `keyLe` as a lexicographic disjunction. -/
theorem keyLe_iff (x y : SortKey) : keyLe x y = true ↔
    x.k1 < y.k1 ∨ (x.k1 = y.k1 ∧ (x.k2 < y.k2 ∨ (x.k2 = y.k2 ∧
      (strLtB x.name y.name = true ∨ (x.name = y.name ∧ x.k3 ≤ y.k3))))) := by
  obtain ⟨a1, a2, an, a3⟩ := x
  obtain ⟨b1, b2, bn, b3⟩ := y
  simp only [keyLe]
  split_ifs with h1 h2 h3
  · subst h1; subst h2; subst h3
    simp [strLtB_irrefl]
  · subst h1; subst h2
    simp [h3]
  · subst h1
    simp [h2]
  · simp [h1]

theorem keyLe_total (x y : SortKey) : keyLe x y = true ∨ keyLe y x = true := by
  rw [keyLe_iff, keyLe_iff]
  rcases lt_trichotomy x.k1 y.k1 with h1 | h1 | h1
  · exact Or.inl (Or.inl h1)
  · rcases lt_trichotomy x.k2 y.k2 with h2 | h2 | h2
    · exact Or.inl (Or.inr ⟨h1, Or.inl h2⟩)
    · rcases strLtB_total x.name y.name with h3 | h3 | h3
      · rcases le_total x.k3 y.k3 with h4 | h4
        · exact Or.inl (Or.inr ⟨h1, Or.inr ⟨h2, Or.inr ⟨h3, h4⟩⟩⟩)
        · exact Or.inr (Or.inr ⟨h1.symm, Or.inr ⟨h2.symm, Or.inr ⟨h3.symm, h4⟩⟩⟩)
      · exact Or.inl (Or.inr ⟨h1, Or.inr ⟨h2, Or.inl h3⟩⟩)
      · exact Or.inr (Or.inr ⟨h1.symm, Or.inr ⟨h2.symm, Or.inl h3⟩⟩)
    · exact Or.inr (Or.inr ⟨h1.symm, Or.inl h2⟩)
  · exact Or.inr (Or.inl h1)

theorem keyLe_trans (x y z : SortKey) (hxy : keyLe x y = true)
    (hyz : keyLe y z = true) : keyLe x z = true := by
  rw [keyLe_iff] at hxy hyz ⊢
  rcases hxy with h1 | ⟨he1, hxy⟩
  · rcases hyz with h2 | ⟨he2, -⟩
    · exact Or.inl (lt_trans h1 h2)
    · exact Or.inl (he2 ▸ h1)
  · rcases hyz with h2 | ⟨he2, hyz⟩
    · exact Or.inl (he1 ▸ h2)
    · refine Or.inr ⟨he1.trans he2, ?_⟩
      rcases hxy with h1 | ⟨hf1, hxy⟩
      · rcases hyz with h2 | ⟨hf2, -⟩
        · exact Or.inl (lt_trans h1 h2)
        · exact Or.inl (hf2 ▸ h1)
      · rcases hyz with h2 | ⟨hf2, hyz⟩
        · exact Or.inl (hf1 ▸ h2)
        · refine Or.inr ⟨hf1.trans hf2, ?_⟩
          rcases hxy with h1 | ⟨hn1, hxy⟩
          · rcases hyz with h2 | ⟨hn2, -⟩
            · exact Or.inl (strLtB_trans _ _ _ h1 h2)
            · exact Or.inl (hn2 ▸ h1)
          · rcases hyz with h2 | ⟨hn2, hyz⟩
            · exact Or.inl (hn1 ▸ h2)
            · exact Or.inr ⟨hn1.trans hn2, le_trans hxy hyz⟩

/-- `sortByKey` permutes its input. -/
theorem sortByKey_perm (f : α → SortKey) (l : List α) :
    (sortByKey f l).Perm l :=
  List.perm_insertionSort _ l

/-- `sortByKey` sorts by the mapped key. -/
theorem sortByKey_sorted (f : α → SortKey) (l : List α) :
    (sortByKey f l).Sorted (fun x y => keyLe (f x) (f y) = true) := by
  haveI : IsTotal α (fun x y => keyLe (f x) (f y) = true) :=
    ⟨fun a b => keyLe_total (f a) (f b)⟩
  haveI : IsTrans α (fun x y => keyLe (f x) (f y) = true) :=
    ⟨fun a b c => keyLe_trans (f a) (f b) (f c)⟩
  exact List.sorted_insertionSort _ l

/-! Membership characterizations of the search pipelines. -/

theorem isPrefixOf_self (l : List Char) : l.isPrefixOf l = true := by
  induction l with
  | nil => rfl
  | cons c cs ih => simp [List.isPrefixOf, ih]

/-- A pair is among the scored candidates iff its segment is loaded, survives
the text match, and survives the civic filter with the recorded final score. -/
theorem mem_searchScored (streets : List StreetSegment) (qn : String) (civic : Option Int)
    (s : Nat) (seg : StreetSegment) :
    (s, seg) ∈ searchScored streets qn civic ↔
      seg ∈ streets ∧ ∃ base : Nat, textScore qn (normSegName seg) = some base ∧
        searchCivicAdjust civic base seg = some s := by
  simp only [searchScored, List.mem_filterMap]
  constructor
  · rintro ⟨a, ha, hfa⟩
    cases hts : textScore qn (normSegName a) with
    | none => rw [hts] at hfa; cases hfa
    | some base =>
      rw [hts] at hfa
      rw [Option.map_eq_some'] at hfa
      obtain ⟨v, hv, hpair⟩ := hfa
      rw [Prod.mk.injEq] at hpair
      obtain ⟨h1, h2⟩ := hpair
      subst h1; subst h2
      exact ⟨ha, base, hts, hv⟩
  · rintro ⟨hmem, base, hts, hadj⟩
    refine ⟨seg, hmem, ?_⟩
    simp [hts, hadj]

/-- The text-score if-chain, spelled out as the claim's case table. -/
theorem textScore_eq_some_iff (qn sn : String) (b : Nat) :
    textScore qn sn = some b ↔
      ((sn = qn ∧ b = 100) ∨
       (sn ≠ qn ∧ qn.data.isPrefixOf sn.data = true ∧ b = 80) ∨
       (qn.data.isPrefixOf sn.data = false ∧ qn.data ∈ splitWs sn.data ∧ b = 60) ∨
       (qn.data.isPrefixOf sn.data = false ∧ qn.data ∉ splitWs sn.data ∧
         containsB sn.data qn.data = true ∧ b = 40)) := by
  have hcm : (splitWs sn.data).contains qn.data = true ↔ qn.data ∈ splitWs sn.data :=
    List.elem_iff
  unfold textScore
  split_ifs with h1 h2 h3 h4
  · constructor
    · intro h
      exact Or.inl ⟨h1, (Option.some_inj.mp h).symm⟩
    · rintro (⟨-, h⟩ | ⟨hne, -, -⟩ | ⟨hp, -, -⟩ | ⟨hp, -, -, -⟩)
      · rw [h]
      · exact absurd h1 hne
      · simp [h1, isPrefixOf_self] at hp
      · simp [h1, isPrefixOf_self] at hp
  · constructor
    · intro h
      exact Or.inr (Or.inl ⟨h1, h2, (Option.some_inj.mp h).symm⟩)
    · rintro (⟨he, -⟩ | ⟨-, -, h⟩ | ⟨hp, -, -⟩ | ⟨hp, -, -, -⟩)
      · exact absurd he h1
      · rw [h]
      · simp [h2] at hp
      · simp [h2] at hp
  · rw [Bool.not_eq_true] at h2
    rw [hcm] at h3
    constructor
    · intro h
      exact Or.inr (Or.inr (Or.inl ⟨h2, h3, (Option.some_inj.mp h).symm⟩))
    · rintro (⟨he, -⟩ | ⟨-, hp, -⟩ | ⟨-, -, h⟩ | ⟨-, hw, -, -⟩)
      · exact absurd he h1
      · simp [h2] at hp
      · rw [h]
      · exact absurd h3 hw
  · rw [Bool.not_eq_true] at h2
    rw [hcm] at h3
    constructor
    · intro h
      exact Or.inr (Or.inr (Or.inr ⟨h2, h3, h4, (Option.some_inj.mp h).symm⟩))
    · rintro (⟨he, -⟩ | ⟨-, hp, -⟩ | ⟨-, hw, -⟩ | ⟨-, -, -, h⟩)
      · exact absurd he h1
      · simp [h2] at hp
      · exact absurd hw h3
      · rw [h]
  · rw [Bool.not_eq_true] at h2 h4
    rw [hcm] at h3
    constructor
    · intro h; cases h
    · rintro (⟨he, -⟩ | ⟨-, hp, -⟩ | ⟨-, hw, -⟩ | ⟨-, -, hc, -⟩)
      · exact absurd he h1
      · simp [h2] at hp
      · exact absurd hw h3
      · simp [h4] at hc

/-- The civic-number filter, spelled out as the claim's case analysis. -/
theorem searchCivicAdjust_eq_some_iff (civic : Option Int) (base : Nat)
    (seg : StreetSegment) (s : Nat) :
    searchCivicAdjust civic base seg = some s ↔
      ((civic = none ∧ s = base) ∨
       (∃ c, civic = some c ∧
         ((obTruthy seg.address_start = true ∧ obTruthy seg.address_end = true ∧
             min (seg.address_start.getD 0) (seg.address_end.getD 0) ≤ c ∧
             c ≤ max (seg.address_start.getD 0) (seg.address_end.getD 0) ∧
             s = base + 20) ∨
          (obTruthy seg.address_end = false ∧ obTruthy seg.address_start = true ∧
             seg.address_start.getD 0 ≤ c ∧ s = base) ∨
          (obTruthy seg.address_start = false ∧ s = base)))) := by
  cases civic with
  | none =>
    constructor
    · intro h
      exact Or.inl ⟨rfl, (Option.some_inj.mp h).symm⟩
    · rintro (⟨-, h⟩ | ⟨c, hc, -⟩)
      · rw [h]; rfl
      · cases hc
  | some c =>
    simp only [searchCivicAdjust]
    constructor
    · intro h
      refine Or.inr ⟨c, rfl, ?_⟩
      by_cases hb : (obTruthy seg.address_start && obTruthy seg.address_end) = true
      · rw [if_pos hb] at h
        obtain ⟨hs, he⟩ := Bool.and_eq_true_iff.mp hb
        by_cases hin : (decide (min (seg.address_start.getD 0) (seg.address_end.getD 0) ≤ c) &&
            decide (c ≤ max (seg.address_start.getD 0) (seg.address_end.getD 0))) = true
        · rw [if_pos hin] at h
          obtain ⟨h1, h2⟩ := Bool.and_eq_true_iff.mp hin
          exact Or.inl ⟨hs, he, of_decide_eq_true h1, of_decide_eq_true h2,
            (Option.some_inj.mp h).symm⟩
        · rw [if_neg hin] at h; cases h
      · rw [if_neg hb] at h
        rw [Bool.and_eq_true_iff] at hb
        push_neg at hb
        by_cases hs : obTruthy seg.address_start = true
        · rw [if_pos hs] at h
          have he : obTruthy seg.address_end = false := by
            cases hv : obTruthy seg.address_end with
            | false => rfl
            | true => exact absurd hv (hb hs)
          by_cases hlt : (c < seg.address_start.getD 0)
          · rw [if_pos hlt] at h; cases h
          · rw [if_neg hlt] at h
            exact Or.inr (Or.inl ⟨he, hs, le_of_not_lt hlt, (Option.some_inj.mp h).symm⟩)
        · rw [if_neg hs] at h
          rw [Bool.not_eq_true] at hs
          exact Or.inr (Or.inr ⟨hs, (Option.some_inj.mp h).symm⟩)
    · rintro (⟨hc, -⟩ | ⟨c', hc, hcase⟩)
      · cases hc
      · rw [Option.some_inj] at hc
        subst hc
        rcases hcase with ⟨hs, he, h1, h2, hv⟩ | ⟨he, hs, hge, hv⟩ | ⟨hs, hv⟩
        · rw [if_pos (Bool.and_eq_true_iff.mpr ⟨hs, he⟩),
            if_pos (Bool.and_eq_true_iff.mpr ⟨decide_eq_true h1, decide_eq_true h2⟩), hv]
        · have hb : (obTruthy seg.address_start && obTruthy seg.address_end) = false := by
            rw [hs, he]; rfl
          rw [if_neg (by rw [hb]; exact Bool.false_ne_true), if_pos hs,
            if_neg (not_lt.mpr hge), hv]
        · have hb : (obTruthy seg.address_start && obTruthy seg.address_end) = false := by
            rw [hs]; rfl
          rw [if_neg (by rw [hb]; exact Bool.false_ne_true),
            if_neg (by rw [hs]; exact Bool.false_ne_true), hv]

/-- The first component of `searchKey` orders by descending score. -/
theorem keyLe_searchKey_score (x y : Nat × StreetSegment)
    (h : keyLe (searchKey x) (searchKey y) = true) : y.1 ≤ x.1 := by
  rw [keyLe_iff] at h
  rcases h with h | ⟨he, -⟩
  · simp only [searchKey] at h
    omega
  · simp only [searchKey] at he
    omega

/-- The civic filter only ever passes the base score through or adds 20. -/
theorem searchCivicAdjust_bounds (civic : Option Int) (base : Nat) (seg : StreetSegment)
    (s : Nat) (h : searchCivicAdjust civic base seg = some s) :
    s = base ∨ s = base + 20 := by
  cases civic with
  | none => exact Or.inl (Option.some_inj.mp h).symm
  | some c =>
    simp only [searchCivicAdjust] at h
    split_ifs at h
    all_goals first
      | exact Or.inl rfl
      | exact Or.inr rfl
      | exact Or.inl (Option.some_inj.mp h).symm
      | exact Or.inr (Option.some_inj.mp h).symm

/-- An exact normalized match scores base 100. -/
theorem textScore_exact (qn sn : String) (h : sn = qn) : textScore qn sn = some 100 := by
  unfold textScore
  rw [if_pos h]

/-- A substring-only match (not a prefix match, not a whole-word match)
scores base 40 when kept. -/
theorem textScore_subOnly (qn sn : String) (base : Nat)
    (hp : qn.data.isPrefixOf sn.data = false) (hw : qn.data ∉ splitWs sn.data)
    (h : textScore qn sn = some base) : base = 40 := by
  rcases (textScore_eq_some_iff qn sn base).mp h with
    ⟨he, -⟩ | ⟨-, hp2, -⟩ | ⟨-, hw2, -⟩ | ⟨-, -, -, hb⟩
  · rw [he, isPrefixOf_self] at hp; cases hp
  · rw [hp] at hp2; cases hp2
  · exact absurd hw2 hw
  · exact hb

/-- **C1**: free-text `search` keeps a candidate exactly when its normalized
name relates to the normalized query, with score 100 for equality, 80 for a
prefix match, 60 for a whole-word match, 40 for a substring match; a given
civic number adds 20 inside a closed range, excludes a closed range missing
it, excludes `addressStart`-only segments below the start, and leaves
segments without range information alone; the output is the scored candidate
list sorted by descending score with ties by `(street_name, address_start or
0)`, truncated to `limit`, so an exact-match candidate always precedes a
substring-only candidate. -/
theorem C1_search_scoring_and_ranking (streets : List StreetSegment) (query : String)
    (civic : Option Int) (limit : Nat)
    (hq : String.mk (trimPy (toLowerPy query.data)) ≠ "") :
    (search true streets query civic limit =
      ((searchSorted streets query civic).take limit).map (fun x => x.2)) ∧
    (∀ (s : Nat) (seg : StreetSegment),
      (s, seg) ∈ searchScored streets (normQuery query) civic ↔
      seg ∈ streets ∧ ∃ base : Nat,
        ((normSegName seg = normQuery query ∧ base = 100) ∨
         (normSegName seg ≠ normQuery query ∧
           (normQuery query).data.isPrefixOf (normSegName seg).data = true ∧ base = 80) ∨
         ((normQuery query).data.isPrefixOf (normSegName seg).data = false ∧
           (normQuery query).data ∈ splitWs (normSegName seg).data ∧ base = 60) ∨
         ((normQuery query).data.isPrefixOf (normSegName seg).data = false ∧
           (normQuery query).data ∉ splitWs (normSegName seg).data ∧
           containsB (normSegName seg).data (normQuery query).data = true ∧ base = 40)) ∧
        ((civic = none ∧ s = base) ∨
         (∃ c, civic = some c ∧
           ((obTruthy seg.address_start = true ∧ obTruthy seg.address_end = true ∧
               min (seg.address_start.getD 0) (seg.address_end.getD 0) ≤ c ∧
               c ≤ max (seg.address_start.getD 0) (seg.address_end.getD 0) ∧
               s = base + 20) ∨
            (obTruthy seg.address_end = false ∧ obTruthy seg.address_start = true ∧
               seg.address_start.getD 0 ≤ c ∧ s = base) ∨
            (obTruthy seg.address_start = false ∧ s = base))))) ∧
    (searchSorted streets query civic).Perm (searchScored streets (normQuery query) civic) ∧
    (searchSorted streets query civic).Sorted
      (fun x y => keyLe (searchKey x) (searchKey y) = true) ∧
    (∀ i j : Fin (searchSorted streets query civic).length, i < j →
      ((searchSorted streets query civic).get j).1 ≤
        ((searchSorted streets query civic).get i).1) ∧
    (∀ i j : Fin (searchSorted streets query civic).length,
      normSegName ((searchSorted streets query civic).get i).2 = normQuery query →
      (normQuery query).data.isPrefixOf
        (normSegName ((searchSorted streets query civic).get j).2).data = false →
      (normQuery query).data ∉
        splitWs (normSegName ((searchSorted streets query civic).get j).2).data →
      (i : Nat) < (j : Nat)) := by
  refine ⟨?_, ?_, sortByKey_perm _ _, sortByKey_sorted _ _, ?_, ?_⟩
  · simp only [search, searchRanked, Bool.not_true, if_neg hq, if_false]
    rfl
  · intro s seg
    rw [mem_searchScored]
    constructor
    · rintro ⟨hm, base, hts, hadj⟩
      exact ⟨hm, base, (textScore_eq_some_iff _ _ _).mp hts,
        (searchCivicAdjust_eq_some_iff _ _ _ _).mp hadj⟩
    · rintro ⟨hm, base, ht, hc⟩
      exact ⟨hm, base, (textScore_eq_some_iff _ _ _).mpr ht,
        (searchCivicAdjust_eq_some_iff _ _ _ _).mpr hc⟩
  · intro i j hij
    exact keyLe_searchKey_score _ _
      ((sortByKey_sorted searchKey _).rel_get_of_lt hij)
  · intro i j hexact hp hw
    have hperm :
        (searchSorted streets query civic).Perm
          (searchScored streets (normQuery query) civic) :=
      sortByKey_perm _ _
    have hmi :
        (searchSorted streets query civic).get i ∈
          searchScored streets (normQuery query) civic :=
      hperm.mem_iff.mp (List.get_mem _ ↑i i.2)
    have hmj :
        (searchSorted streets query civic).get j ∈
          searchScored streets (normQuery query) civic :=
      hperm.mem_iff.mp (List.get_mem _ ↑j j.2)
    have hscorei : 100 ≤ ((searchSorted streets query civic).get i).1 := by
      obtain ⟨-, base, hts, hadj⟩ :=
        (mem_searchScored streets (normQuery query) civic _ _).mp hmi
      rw [textScore_exact _ _ hexact] at hts
      have hbase : base = 100 := (Option.some_inj.mp hts).symm
      rcases searchCivicAdjust_bounds _ _ _ _ hadj with h | h <;> omega
    have hscorej : ((searchSorted streets query civic).get j).1 ≤ 60 := by
      obtain ⟨-, base, hts, hadj⟩ :=
        (mem_searchScored streets (normQuery query) civic _ _).mp hmj
      have hbase : base = 40 := textScore_subOnly _ _ _ hp hw hts
      rcases searchCivicAdjust_bounds _ _ _ _ hadj with h | h <;> omega
    have hsorted : (searchSorted streets query civic).Sorted
        (fun x y => keyLe (searchKey x) (searchKey y) = true) :=
      sortByKey_sorted _ _
    by_contra hged
    push_neg at hged
    rcases lt_or_eq_of_le hged with hlt | heq
    · have := keyLe_searchKey_score _ _ (hsorted.rel_get_of_lt hlt)
      omega
    · have hfin : j = i := Fin.ext heq
      rw [← hfin] at hexact
      rw [hexact, isPrefixOf_self] at hp
      cases hp

/-- Witness for C1: the hypothesis (a non-empty trimmed query) is satisfied
by the query `"denis"` over a one-segment dataset. -/
theorem C1_search_scoring_and_ranking_witness :
    (String.mk (trimPy (toLowerPy "denis".data)) ≠ "") ∧
    ((search true [segDenisStartOnly] "denis" none 20 =
      ((searchSorted [segDenisStartOnly] "denis" none).take 20).map (fun x => x.2)) ∧
    (∀ (s : Nat) (seg : StreetSegment),
      (s, seg) ∈ searchScored [segDenisStartOnly] (normQuery "denis") none ↔
      seg ∈ [segDenisStartOnly] ∧ ∃ base : Nat,
        ((normSegName seg = normQuery "denis" ∧ base = 100) ∨
         (normSegName seg ≠ normQuery "denis" ∧
           (normQuery "denis").data.isPrefixOf (normSegName seg).data = true ∧ base = 80) ∨
         ((normQuery "denis").data.isPrefixOf (normSegName seg).data = false ∧
           (normQuery "denis").data ∈ splitWs (normSegName seg).data ∧ base = 60) ∨
         ((normQuery "denis").data.isPrefixOf (normSegName seg).data = false ∧
           (normQuery "denis").data ∉ splitWs (normSegName seg).data ∧
           containsB (normSegName seg).data (normQuery "denis").data = true ∧ base = 40)) ∧
        (((none : Option Int) = none ∧ s = base) ∨
         (∃ c, (none : Option Int) = some c ∧
           ((obTruthy seg.address_start = true ∧ obTruthy seg.address_end = true ∧
               min (seg.address_start.getD 0) (seg.address_end.getD 0) ≤ c ∧
               c ≤ max (seg.address_start.getD 0) (seg.address_end.getD 0) ∧
               s = base + 20) ∨
            (obTruthy seg.address_end = false ∧ obTruthy seg.address_start = true ∧
               seg.address_start.getD 0 ≤ c ∧ s = base) ∨
            (obTruthy seg.address_start = false ∧ s = base))))) ∧
    (searchSorted [segDenisStartOnly] "denis" none).Perm
      (searchScored [segDenisStartOnly] (normQuery "denis") none) ∧
    (searchSorted [segDenisStartOnly] "denis" none).Sorted
      (fun x y => keyLe (searchKey x) (searchKey y) = true) ∧
    (∀ i j : Fin (searchSorted [segDenisStartOnly] "denis" none).length, i < j →
      ((searchSorted [segDenisStartOnly] "denis" none).get j).1 ≤
        ((searchSorted [segDenisStartOnly] "denis" none).get i).1) ∧
    (∀ i j : Fin (searchSorted [segDenisStartOnly] "denis" none).length,
      normSegName ((searchSorted [segDenisStartOnly] "denis" none).get i).2 =
        normQuery "denis" →
      (normQuery "denis").data.isPrefixOf
        (normSegName ((searchSorted [segDenisStartOnly] "denis" none).get j).2).data =
        false →
      (normQuery "denis").data ∉
        splitWs (normSegName ((searchSorted [segDenisStartOnly] "denis" none).get j).2).data →
      (i : Nat) < (j : Nat))) :=
  ⟨by decide, C1_search_scoring_and_ranking [segDenisStartOnly] "denis" none 20 (by decide)⟩

/-- **C2, counterexample**: two concrete instances refute the claim as
stated.  (i) The claim asserts that a segment with only `addressStart` is
returned by `_search_by_civic_number` whenever `civicNumber >=
addressStart`; the code's range branch requires BOTH bounds, so the
start-only segment `⟨3, "Rue Denis", some 50, none, …⟩` is not returned for
civic number 150 even though 150 ≥ 50.  (ii) The claim asserts that a
segment whose `min(addressStart, addressEnd)..max(...)` range contains the
civic number is returned; the bounds are tested for Python truthiness, so
the segment stored with bounds `(0, 100)` is not returned for civic number
60 even though `min 0 100 ≤ 60 ≤ max 0 100`. -/
theorem C2_counterexample :
    (segDenisStartOnly.address_start = some 50 ∧
     segDenisStartOnly.address_end = none ∧
     (50 : Int) ≤ 150 ∧
     _search_by_civic_number true [segDenisStartOnly] 150 none 15 = []) ∧
    (segZeroStart.address_start = some 0 ∧
     segZeroStart.address_end = some 100 ∧
     min (0 : Int) 100 ≤ 60 ∧ (60 : Int) ≤ max (0 : Int) 100 ∧
     _search_by_civic_number true [segZeroStart] 60 none 15 = []) := by
  refine ⟨⟨rfl, rfl, by omega, ?_⟩, ⟨rfl, rfl, by omega, by omega, ?_⟩⟩
  · decide
  · decide

/-- **C2, amended**: `_search_by_civic_number` returns exactly the loaded
segments with BOTH bounds present and non-zero whose `min..max` range
contains the civic number (a segment with only `addressStart` never
matches, and neither does a segment with a zero bound — the two deviations
the counterexample exhibits), restricted to segments whose normalized name
contains the normalized hint when one is given, sorted by `(street_name,
address_start or 0)` and truncated to `limit`. -/
theorem C2_civic_range_search (streets : List StreetSegment) (civic : Int)
    (street_hint : Option String) (limit : Nat) :
    ∃ mid : List StreetSegment,
      _search_by_civic_number true streets civic street_hint limit = mid.take limit ∧
      mid.Sorted (fun x y =>
        strLtB x.street_name.data y.street_name.data = true ∨
        (x.street_name.data = y.street_name.data ∧ startKey x ≤ startKey y)) ∧
      (∀ seg, seg ∈ mid ↔ seg ∈ streets ∧
        (∀ hs, normHint street_hint = some hs →
          containsB (normSegName seg).data hs.data = true) ∧
        obTruthy seg.address_start = true ∧ obTruthy seg.address_end = true ∧
        min (seg.address_start.getD 0) (seg.address_end.getD 0) ≤ civic ∧
        civic ≤ max (seg.address_start.getD 0) (seg.address_end.getD 0)) := by
  refine ⟨sortByKey (fun seg => ⟨0, 0, seg.street_name.data, startKey seg⟩)
    (streets.filter (fun seg =>
      (match normHint street_hint with
       | some hs => containsB (normSegName seg).data hs.data
       | none => true) && rangeContains civic seg)), rfl, ?_, ?_⟩
  · have hs := sortByKey_sorted
      (fun seg : StreetSegment => (⟨0, 0, seg.street_name.data, startKey seg⟩ : SortKey))
      (streets.filter (fun seg =>
        (match normHint street_hint with
         | some hs => containsB (normSegName seg).data hs.data
         | none => true) && rangeContains civic seg))
    refine hs.imp ?_
    intro x y hxy
    rcases (keyLe_iff _ _).mp hxy with h | ⟨-, h | ⟨-, h | ⟨hn, hk⟩⟩⟩
    · exact absurd h (lt_irrefl _)
    · exact absurd h (lt_irrefl _)
    · exact Or.inl h
    · exact Or.inr ⟨hn, hk⟩
  · intro seg
    rw [(sortByKey_perm _ _).mem_iff, List.mem_filter]
    constructor
    · rintro ⟨hmem, hcond⟩
      rw [Bool.and_eq_true] at hcond
      obtain ⟨hhint, hrange⟩ := hcond
      simp only [rangeContains, Bool.and_eq_true, decide_eq_true_eq] at hrange
      obtain ⟨⟨ht1, ht2⟩, hd1, hd2⟩ := hrange
      refine ⟨hmem, ?_, ht1, ht2, hd1, hd2⟩
      intro hs hhs
      rw [hhs] at hhint
      exact hhint
    · rintro ⟨hmem, hhint, ht1, ht2, h1, h2⟩
      refine ⟨hmem, ?_⟩
      rw [Bool.and_eq_true]
      constructor
      · cases hh : normHint street_hint with
        | none => rfl
        | some hs => exact hhint hs hh
      · simp only [rangeContains, Bool.and_eq_true, decide_eq_true_eq]
        exact ⟨⟨ht1, ht2⟩, h1, h2⟩

/-- **C3**: for a segment stored with reversed bounds
(`address_start > address_end`, both non-zero) every civic number between
the two bounds (inclusive) passes the containment check of free-text
`search`, of `find_nearest_segments`, and of `_search_by_civic_number` —
containment is computed with `min`/`max`, never from raw field order. -/
theorem C3_reversed_bounds_contain (seg : StreetSegment) (a b c : Int) (score : Nat)
    (hs : seg.address_start = some a) (he : seg.address_end = some b)
    (hrev : b < a) (hpos : 1 ≤ b) (h1 : b ≤ c) (h2 : c ≤ a) :
    searchCivicAdjust (some c) score seg = some (score + 20) ∧
    nearestCivicKeep (some c) seg = true ∧
    rangeContains c seg = true := by
  have hta : obTruthy seg.address_start = true := by
    rw [hs]; simp only [obTruthy, decide_eq_true_eq]; omega
  have htb : obTruthy seg.address_end = true := by
    rw [he]; simp only [obTruthy, decide_eq_true_eq]; omega
  have hmin : min (seg.address_start.getD 0) (seg.address_end.getD 0) ≤ c := by
    rw [hs, he]; simp only [Option.getD_some]; omega
  have hmax : c ≤ max (seg.address_start.getD 0) (seg.address_end.getD 0) := by
    rw [hs, he]; simp only [Option.getD_some]; omega
  refine ⟨?_, ?_, ?_⟩
  · simp [searchCivicAdjust, hta, htb, hmin, hmax]
  · simp [nearestCivicKeep, hta, htb, hmin, hmax]
  · simp [rangeContains, hta, htb, hmin, hmax]

/-- Witness for C3: the reversed-range segment `(200, 100)` matches civic
number 150 in all three checks. -/
theorem C3_reversed_bounds_contain_witness :
    searchCivicAdjust (some 150) 40 segReversed = some (40 + 20) ∧
    nearestCivicKeep (some 150) segReversed = true ∧
    rangeContains 150 segReversed = true :=
  C3_reversed_bounds_contain segReversed 200 100 150 40 rfl rfl (by omega)
    (by omega) (by omega) (by omega)

/-- **C10**: every civic-range filter of the resolver tests the bounds for
truthiness, so a bound equal to 0 behaves exactly like an absent bound in
the `search` filter, the `find_nearest_segments` filter, the
`_search_by_civic_number` range check and the postal-code re-ranking key;
consequently a segment stored with `address_start = 0` (or
`address_end = 0`) is never returned by `_search_by_civic_number`. -/
theorem C10_zero_bounds_absent :
    (∀ (seg : StreetSegment) (c : Int) (score : Nat),
      searchCivicAdjust (some c) score { seg with address_start := some 0 } =
        searchCivicAdjust (some c) score { seg with address_start := none } ∧
      searchCivicAdjust (some c) score { seg with address_end := some 0 } =
        searchCivicAdjust (some c) score { seg with address_end := none } ∧
      nearestCivicKeep (some c) { seg with address_start := some 0 } =
        nearestCivicKeep (some c) { seg with address_start := none } ∧
      nearestCivicKeep (some c) { seg with address_end := some 0 } =
        nearestCivicKeep (some c) { seg with address_end := none } ∧
      rangeContains c { seg with address_start := some 0 } =
        rangeContains c { seg with address_start := none } ∧
      rangeContains c { seg with address_end := some 0 } =
        rangeContains c { seg with address_end := none } ∧
      postalSortKey c { seg with address_start := some 0 } =
        postalSortKey c { seg with address_start := none } ∧
      postalSortKey c { seg with address_end := some 0 } =
        postalSortKey c { seg with address_end := none }) ∧
    (∀ (streets : List StreetSegment) (c : Int) (hint : Option String) (limit : Nat)
      (seg : StreetSegment),
      seg.address_start = some 0 ∨ seg.address_end = some 0 →
      seg ∉ _search_by_civic_number true streets c hint limit) := by
  constructor
  · intro seg c score
    refine ⟨rfl, ?_, rfl, ?_, ?_, ?_, rfl, ?_⟩
    · simp [searchCivicAdjust, obTruthy, Bool.and_false]
    · simp [nearestCivicKeep, obTruthy, Bool.and_false]
    · simp [rangeContains, obTruthy, Bool.and_false]
    · simp [rangeContains, obTruthy, Bool.and_false]
    · simp [postalSortKey, obTruthy, Bool.and_false]
  · intro streets c hint limit seg hzero hmem
    have hmem2 : seg ∈ sortByKey (fun s => ⟨0, 0, s.street_name.data, startKey s⟩)
        (streets.filter (fun s =>
          (match normHint hint with
           | some hs => containsB (normSegName s).data hs.data
           | none => true) && rangeContains c s)) :=
      (List.take_sublist limit _).subset hmem
    have hmem3 := (sortByKey_perm _ _).mem_iff.mp hmem2
    have hcond := (List.mem_filter.mp hmem3).2
    rw [Bool.and_eq_true] at hcond
    have hrange := hcond.2
    rcases hzero with h0 | h0 <;>
      simp [rangeContains, h0, obTruthy] at hrange

/-- Witness for C10: the segment with stored range `(0, 100)` is not
returned by `_search_by_civic_number` for civic number 50, which its
closed range would contain. -/
theorem C10_zero_bounds_absent_witness :
    segZeroStart.address_start = some 0 ∧
    segZeroStart ∉ _search_by_civic_number true [segZeroStart] 50 none 15 :=
  ⟨rfl, C10_zero_bounds_absent.2 [segZeroStart] 50 none 15 segZeroStart (Or.inl rfl)⟩

/-- **C4**: when all four geocoding query formulations return no hits,
`async_search_by_postal_code` returns exactly the result of
`_search_by_civic_number` with the same civic number, street hint and
limit — not an empty list. -/
theorem C4_postal_code_fallback (dist : Rat → Rat → Rat → Rat → Rat) (loaded : Bool)
    (streets : List StreetSegment) (civic : Int) (street_hint : Option String)
    (limit : Nat) :
    async_search_by_postal_code dist loaded streets [] [] [] [] civic street_hint limit =
      _search_by_civic_number loaded streets civic street_hint limit := rfl

/-- **C5**: a segment without a centroid is never returned by
`find_nearest_segments` (for any distance function, dataset or arguments),
while free-text `search` and `_search_by_civic_number` can still return
such a segment. -/
theorem C5_no_centroid_geometry_invariant :
    (∀ (dist : Rat → Rat → Rat → Rat → Rat) (loaded : Bool)
      (streets : List StreetSegment) (lat lon : Rat) (street_name : Option String)
      (civic : Option Int) (limit : Nat) (seg : StreetSegment),
      seg ∈ find_nearest_segments dist loaded streets lat lon street_name civic limit →
      seg.lat ≠ none ∧ seg.lon ≠ none) ∧
    (segNoCentroid.lat = none ∧ segNoCentroid.lon = none ∧
     segNoCentroid ∈ search true [segNoCentroid] "elm" none 20 ∧
     segNoCentroid ∈ _search_by_civic_number true [segNoCentroid] 5 none 15) := by
  constructor
  · intro dist loaded streets lat lon street_name civic limit seg h
    cases loaded with
    | false => simp [find_nearest_segments] at h
    | true =>
      simp only [find_nearest_segments, Bool.not_true, Bool.false_eq_true, if_false,
        List.mem_map] at h
      obtain ⟨x, hxtake, hxseg⟩ := h
      have hxmem := (List.perm_insertionSort
        (fun a b : Rat × StreetSegment => a.1 ≤ b.1) _).mem_iff.mp
        ((List.take_sublist limit _).subset hxtake)
      obtain ⟨a, -, hfa⟩ := List.mem_filterMap.mp hxmem
      cases hla : a.lat with
      | none => rw [hla] at hfa; cases hfa
      | some alat =>
        cases hlo : a.lon with
        | none => rw [hla, hlo] at hfa; cases hfa
        | some alon =>
          rw [hla, hlo] at hfa
          split_ifs at hfa
          rw [Option.some_inj] at hfa
          have : x.2 = a := by rw [← hfa]
          rw [← hxseg, this, hla, hlo]
          exact ⟨Option.some_ne_none alat, Option.some_ne_none alon⟩
  · refine ⟨rfl, rfl, ?_, ?_⟩ <;> decide

/-- Witness for C5: a segment with a centroid that `find_nearest_segments`
does return indeed has both coordinates present. -/
theorem C5_no_centroid_geometry_invariant_witness :
    segWithCentroid.lat ≠ none ∧ segWithCentroid.lon ≠ none :=
  C5_no_centroid_geometry_invariant.1 (fun _ _ _ _ => 0) true [segWithCentroid]
    0 0 none none 10 segWithCentroid (by decide)

/-- **C6**: `_extract_centroid` returns the arithmetic vertex mean for a
`LineString`, the vertex mean over all flattened lines for a
`MultiLineString`, the point itself (in `(lat, lon)` order) for a `Point`
with at least two coordinates, and `(none, none)` for a missing, empty or
other shape; on the 2-point line `[[-73.6, 45.5], [-73.4, 45.7]]` it yields
exactly `(45.6, -73.5)`. -/
theorem C6_extract_centroid :
    (∀ coords : List (Rat × Rat), coords ≠ [] →
      _extract_centroid (some (.lineString coords)) =
        (some ((coords.map (fun c => c.2)).sum / (coords.length : Rat)),
         some ((coords.map (fun c => c.1)).sum / (coords.length : Rat)))) ∧
    (∀ lines : List (List (Rat × Rat)), lines.flatten ≠ [] →
      _extract_centroid (some (.multiLineString lines)) =
        (some ((lines.flatten.map (fun c => c.2)).sum / (lines.flatten.length : Rat)),
         some ((lines.flatten.map (fun c => c.1)).sum / (lines.flatten.length : Rat)))) ∧
    (∀ (c0 c1 : Rat) (rest : List Rat),
      _extract_centroid (some (.point (c0 :: c1 :: rest))) = (some c1, some c0)) ∧
    (_extract_centroid none = (none, none) ∧
     _extract_centroid (some .other) = (none, none) ∧
     _extract_centroid (some (.lineString [])) = (none, none) ∧
     (∀ lines : List (List (Rat × Rat)), lines.flatten = [] →
       _extract_centroid (some (.multiLineString lines)) = (none, none)) ∧
     _extract_centroid (some (.point [])) = (none, none) ∧
     (∀ c0 : Rat, _extract_centroid (some (.point [c0])) = (none, none))) ∧
    (_extract_centroid (some (.lineString [(-73.6, 45.5), (-73.4, 45.7)])) =
      (some 45.6, some (-73.5))) := by
  refine ⟨?_, ?_, fun c0 c1 rest => rfl,
    ⟨rfl, rfl, rfl, ?_, rfl, fun c0 => rfl⟩, ?_⟩
  · intro coords h
    cases coords with
    | nil => exact absurd rfl h
    | cons a t => rfl
  · intro lines h
    cases lines with
    | nil => exact absurd rfl h
    | cons l ls =>
      have hf : ((l :: ls).flatten).isEmpty = false := by
        cases hfe : (l :: ls).flatten with
        | nil => exact absurd hfe h
        | cons x xs => rfl
      simp only [_extract_centroid, List.isEmpty_cons, hf, Bool.false_eq_true, if_false]
  · intro lines h
    cases lines with
    | nil => rfl
    | cons l ls =>
      have hf : ((l :: ls).flatten).isEmpty = true := by rw [h]; rfl
      simp only [_extract_centroid, List.isEmpty_cons, hf, if_true]
      exact ite_self _
  · norm_num [_extract_centroid]

/-- Witness for C6: a one-vertex line satisfies the non-emptiness
hypothesis, and its centroid is the vertex mean. -/
theorem C6_extract_centroid_witness :
    ([((1 : Rat), (2 : Rat))] ≠ ([] : List (Rat × Rat))) ∧
    _extract_centroid (some (.lineString [((1 : Rat), (2 : Rat))])) =
      (some (([((1 : Rat), (2 : Rat))].map (fun c => c.2)).sum /
          ([((1 : Rat), (2 : Rat))].length : Rat)),
       some (([((1 : Rat), (2 : Rat))].map (fun c => c.1)).sum /
          ([((1 : Rat), (2 : Rat))].length : Rat))) :=
  ⟨by decide, C6_extract_centroid.1 [((1 : Rat), (2 : Rat))] (by decide)⟩

/-- **C7, counterexample**: a payload holding a well-formed record followed
by a record whose street-name field is a number does NOT parse to the
well-formed record alone; the `AttributeError` raised by `.strip()` on the
number escapes the `except (ValueError, TypeError)` clause and aborts the
whole parse. -/
theorem C7_counterexample :
    _parse_geobase ⟨some [goodFeature, abortFeature]⟩ = .error .attributeError ∧
    _parse_geobase ⟨some [goodFeature]⟩ = .ok [goodSegment] ∧
    _parse_geobase ⟨some [goodFeature, abortFeature]⟩ ≠ .ok [goodSegment] := by
  refine ⟨rfl, rfl, ?_⟩
  intro h
  rw [show _parse_geobase ⟨some [goodFeature, abortFeature]⟩ =
    .error .attributeError from rfl] at h
  cases h

/-- **C7, amended**: records whose processing raises `ValueError` or
`TypeError` (e.g. a non-numeric identifier string) are skipped and all
remaining well-formed records are returned; a record is rejected when its
identifier field is falsy or its stripped street name is empty; but a
record whose street-name field is present and not a string raises an
uncaught `AttributeError` that aborts the entire parse, and a payload
without a feature list yields zero records without erroring. -/
theorem C7_parse_skips_and_aborts :
    (∀ fs : List RawFeature,
      (∀ f ∈ fs, parseFeature f ≠ .error .attributeError) →
      _parse_geobase ⟨some fs⟩ = .ok (fs.filterMap (fun f =>
        match parseFeature f with
        | .ok (some seg) => some seg
        | _ => none))) ∧
    (∀ f : RawFeature, truthyJ f.cote_rue_id = false → parseFeature f = .ok none) ∧
    (∀ f : RawFeature, nomVoieStripped f.nom_voie = .ok "" → parseFeature f = .ok none) ∧
    (_parse_geobase ⟨none⟩ = .ok []) ∧
    (_parse_geobase ⟨some [goodFeature, skipFeature]⟩ = .ok [goodSegment]) := by
  refine ⟨?_, ?_, ?_, rfl, rfl⟩
  · intro fs h
    induction fs with
    | nil => rfl
    | cons f rest ih =>
      have hf : parseFeature f ≠ .error .attributeError := h f (by simp)
      have hrest : ∀ g ∈ rest, parseFeature g ≠ .error .attributeError :=
        fun g hg => h g (by simp [hg])
      have ihr := ih hrest
      simp only [_parse_geobase] at ihr ⊢
      cases hpf : parseFeature f with
      | ok o =>
        cases o with
        | none => simp [parseFeatures, hpf, ihr, List.filterMap_cons]
        | some seg => simp [parseFeatures, hpf, ihr, List.filterMap_cons, Except.map]
      | error e =>
        cases e with
        | valueError => simp [parseFeatures, hpf, ihr, List.filterMap_cons]
        | typeError => simp [parseFeatures, hpf, ihr, List.filterMap_cons]
        | attributeError => exact absurd hpf hf
  · intro f h
    simp [parseFeature, h, pure, Except.pure]
  · intro f h
    by_cases hid : truthyJ f.cote_rue_id = true
    · simp [parseFeature, hid, h, pure, Except.pure, bind, Except.bind]
    · have hid2 : truthyJ f.cote_rue_id = false := by
        cases hb : truthyJ f.cote_rue_id
        · rfl
        · exact absurd hb hid
      simp [parseFeature, hid2, pure, Except.pure]
  -- remaining conjuncts closed by rfl above

/-- Witness for C7: the singleton payload of the well-formed record
satisfies the no-`AttributeError` hypothesis and parses to exactly the
records its per-feature parse accepts. -/
theorem C7_parse_skips_and_aborts_witness :
    (∀ f ∈ [goodFeature], parseFeature f ≠ Except.error PyErr.attributeError) ∧
    _parse_geobase ⟨some [goodFeature]⟩ = .ok ([goodFeature].filterMap (fun f =>
      match parseFeature f with
      | .ok (some seg) => some seg
      | _ => none)) := by
  have h : ∀ f ∈ [goodFeature], parseFeature f ≠ Except.error PyErr.attributeError := by
    intro f hf hc
    rw [List.mem_singleton] at hf
    rw [hf, show parseFeature goodFeature = .ok (some goodSegment) from rfl] at hc
    cases hc
  exact ⟨h, C7_parse_skips_and_aborts.1 [goodFeature] h⟩

/-- `str.replace` leaves a string without an occurrence of the pattern
unchanged (fuel-indexed form). -/
theorem replaceFuel_of_not_contains (pat rep : List Char) :
    ∀ (fuel : Nat) (s : List Char), containsB s pat = false →
      replaceFuel pat rep fuel s = s := by
  intro fuel
  induction fuel with
  | zero =>
    intro s h
    cases s <;> rfl
  | succ n ih =>
    intro s h
    cases s with
    | nil => rfl
    | cons c rest =>
      rw [containsB, Bool.or_eq_false_iff] at h
      rw [replaceFuel, if_neg (by rw [h.1]; exact Bool.false_ne_true)]
      rw [ih rest h.2]

/-- `str.replace` leaves a string without an occurrence of the pattern
unchanged. -/
theorem listReplace_of_not_contains (pat rep s : List Char)
    (h : containsB s pat = false) : listReplace pat rep s = s :=
  replaceFuel_of_not_contains pat rep s.length s h

/-- Folding the replacement table over a string containing none of the
patterns is the identity. -/
theorem foldl_replace_of_not_contains :
    ∀ (l : List (String × String)) (s : List Char),
      (∀ p ∈ l, containsB s p.1.data = false) →
      l.foldl (fun r pf => listReplace pf.1.data pf.2.data r) s = s := by
  intro l
  induction l with
  | nil => intro s _; rfl
  | cons p tl ih =>
    intro s h
    rw [List.foldl_cons, listReplace_of_not_contains _ _ _ (h p (by simp))]
    exact ih s (fun q hq => h q (by simp [hq]))

/-- **C8, counterexample**: the claim says only a LEADING `rue` is collapsed
and that strings without a listed abbreviation are unchanged up to
case-fold/trim; the code removes every occurrence of `"rue "` (here one in
the middle of the name) and its `"st "` rule also fires inside the word
`ouest`, changing a string the claim says is untouched. -/
theorem C8_counterexample :
    _normalize_street_name "la grande rue des pins" = "la grande des pins" ∧
    ("la grande des pins" : String) ≠ "la grande rue des pins" ∧
    _normalize_street_name "ouest nord" = "ouesaint nord" ∧
    ("ouesaint nord" : String) ≠ "ouest nord" := by
  exact ⟨by decide, by decide, by decide, by decide⟩

/-- **C8, amended**: `_normalize_street_name` lower-cases, then applies the
replacement table in order, each rule replacing EVERY occurrence anywhere in
the string (so `rue ` is removed wherever it occurs, and rules such as
`st ` also fire inside words), then strips; a string containing none of the
fourteen patterns after lower-casing is returned unchanged apart from
case-folding and trimming. -/
theorem C8_normalize_abbreviations :
    (∀ name : String,
      (∀ p ∈ replacements, containsB (toLowerPy name.data) p.1.data = false) →
      _normalize_street_name name = String.mk (trimPy (toLowerPy name.data))) ∧
    _normalize_street_name "st-denis" = "saint-denis" ∧
    _normalize_street_name "Rue St-Denis" = "saint-denis" ∧
    _normalize_street_name "ste-catherine" = "sainte-catherine" ∧
    _normalize_street_name "av. du parc" = "avenue du parc" ∧
    _normalize_street_name "boul. pie-ix" = "boulevard pie-ix" ∧
    _normalize_street_name "blvd x" = "boulevard x" ∧
    _normalize_street_name "ch. des neiges" = "chemin des neiges" ∧
    _normalize_street_name "pl. royale" = "place royale" ∧
    _normalize_street_name "la grande rue verte" = "la grande verte" ∧
    _normalize_street_name "est ouest" = "esaint ouest" := by
  refine ⟨?_, by decide, by decide, by decide, by decide, by decide, by decide,
    by decide, by decide, by decide, by decide⟩
  intro name h
  unfold _normalize_street_name
  rw [foldl_replace_of_not_contains replacements (toLowerPy name.data) h]

/-- Witness for C8: `"Sherbrooke"` contains none of the fourteen patterns,
and is indeed only case-folded and trimmed. -/
theorem C8_normalize_abbreviations_witness :
    (∀ p ∈ replacements, containsB (toLowerPy "Sherbrooke".data) p.1.data = false) ∧
    _normalize_street_name "Sherbrooke" =
      String.mk (trimPy (toLowerPy "Sherbrooke".data)) :=
  ⟨by decide, C8_normalize_abbreviations.1 "Sherbrooke" (by decide)⟩

/-- Once both callers have finished, a scheduler step changes nothing. -/
theorem loadStep_finished (s : LoadState) (c : Bool) (r1 r2 : Bool)
    (h1 : s.t1 = .finished r1) (h2 : s.t2 = .finished r2) : loadStep s c = s := by
  cases c <;> simp [loadStep, enabled1, enabled2, advance1, advance2, h1, h2]

/-- Once both callers have finished, any remaining schedule changes nothing. -/
theorem runLoad_finished (cs : List Bool) : ∀ (s : LoadState) (r1 r2 : Bool),
    s.t1 = .finished r1 → s.t2 = .finished r2 → runLoad s cs = s := by
  induction cs with
  | nil => intro s r1 r2 _ _; rfl
  | cons c rest ih =>
    intro s r1 r2 h1 h2
    rw [runLoad, loadStep_finished s c r1 r2 h1 h2]
    exact ih s r1 r2 h1 h2

/-- One scheduler step preserves the lock invariant: the lock is held
exactly when one caller is inside the fetch, and never both. -/
theorem loadStep_inv (s : LoadState) (c : Bool)
    (h1 : s.lockHeld =
      (decide (s.t1 = LoadPC.inFetch) || decide (s.t2 = LoadPC.inFetch)))
    (h2 : ¬(s.t1 = LoadPC.inFetch ∧ s.t2 = LoadPC.inFetch)) :
    (loadStep s c).lockHeld =
      (decide ((loadStep s c).t1 = LoadPC.inFetch) ||
       decide ((loadStep s c).t2 = LoadPC.inFetch)) ∧
    ¬((loadStep s c).t1 = LoadPC.inFetch ∧ (loadStep s c).t2 = LoadPC.inFetch) := by
  obtain ⟨lk, ld, fc, t1, t2⟩ := s
  cases t1 <;> cases t2 <;> cases c <;> cases lk <;> cases ld <;>
    simp_all [loadStep, enabled1, enabled2, advance1, advance2]

/-- Every reachable state satisfies the lock invariant. -/
theorem runLoad_inv (cs : List Bool) : ∀ (s : LoadState),
    s.lockHeld = (decide (s.t1 = LoadPC.inFetch) || decide (s.t2 = LoadPC.inFetch)) →
    ¬(s.t1 = LoadPC.inFetch ∧ s.t2 = LoadPC.inFetch) →
    (runLoad s cs).lockHeld =
      (decide ((runLoad s cs).t1 = LoadPC.inFetch) ||
       decide ((runLoad s cs).t2 = LoadPC.inFetch)) ∧
    ¬((runLoad s cs).t1 = LoadPC.inFetch ∧ (runLoad s cs).t2 = LoadPC.inFetch) := by
  induction cs with
  | nil => intro s h1 h2; exact ⟨h1, h2⟩
  | cons c rest ih =>
    intro s h1 h2
    obtain ⟨h1s, h2s⟩ := loadStep_inv s c h1 h2
    exact ih (loadStep s c) h1s h2s

/-- **C9**: under every interleaving, two concurrent
`async_load(force_refresh=False)` calls against an empty store start exactly
one dataset fetch and both observe a successful load; and the critical
section is mutually exclusive — no reachable state has both callers inside
the fetch. -/
theorem C9_concurrent_load_once :
    (∀ sched : List Bool, 3 ≤ sched.length →
      runLoad initLoad sched =
        { lockHeld := false, loaded := true, fetches := 1,
          t1 := .finished true, t2 := .finished true }) ∧
    (∀ sched : List Bool,
      ¬((runLoad initLoad sched).t1 = LoadPC.inFetch ∧
        (runLoad initLoad sched).t2 = LoadPC.inFetch)) := by
  constructor
  · intro sched hlen
    match sched with
    | [] => simp at hlen
    | [a] => simp at hlen
    | [a, b] => simp at hlen
    | a :: b :: c :: rest =>
      cases a <;> cases b <;> cases c <;>
        (rw [runLoad, runLoad, runLoad]
         exact runLoad_finished rest _ true true rfl rfl)
  · intro sched
    exact (runLoad_inv sched initLoad (by decide) (by decide)).2

/-- Witness for C9: the length hypothesis holds for a concrete three-step
schedule, after which both callers are finished and one fetch ran. -/
theorem C9_concurrent_load_once_witness :
    3 ≤ ([true, false, true] : List Bool).length ∧
    runLoad initLoad [true, false, true] =
      { lockHeld := false, loaded := true, fetches := 1,
        t1 := .finished true, t2 := .finished true } :=
  ⟨by decide, C9_concurrent_load_once.1 [true, false, true] (by decide)⟩

end SnowMontreal
